import Mathlib

/-!
# Verification of the uclicious safe access layer

Shallow embedding of the core of the `uclicious` crate: the `Priority`
normalization functions (`src/raw/priority.rs`), the `ObjectRef` node
accessors, lookups and `FromObject` extraction instances
(`src/raw/object.rs`), the iterator (`src/raw/iterator.rs`), the compound
variable handler (`src/variable_handlers/compound.rs`) and the
environment-backed variable handler (`src/variable_handlers/env.rs`).

Machine integers are modelled as `Nat`/`Int` with explicit `% 2^w` where the
Rust code performs a truncating cast. Fallible operations return
`Option`/`Except`. The external libucl engine is out of the repository; the
handful of engine entry points the embedded code calls (`ucl_object_*_safe`
conversions, iteration, `ucl_object_compare`) are modelled from the
specification's interface contract and marked as such, or left as an
arbitrary parameter when a claim holds for every engine behaviour.
-/

namespace Uclicious

/-- The node kind tag (`ucl_type_t` without `UCL_USERDATA`, which the wrapper
never constructs). Order of constructors follows the C enum order, which
`kindRank` below reflects. -/
inductive UclKind where
  | object
  | array
  | int
  | float
  | string
  | boolean
  | time
  | null
deriving DecidableEq, Repr

/-- Rank of a kind: position in the `ucl_type_t` C enum, used by the
spec-modelled structural comparison (kind comparison precedes content). -/
def kindRank : UclKind → Nat
  | .object => 0
  | .array => 1
  | .int => 2
  | .float => 3
  | .string => 4
  | .boolean => 5
  | .time => 6
  | .null => 7

/-- A tree node of the parsed configuration: a kind tag, an optional key
(present when the node sits inside an object), and a payload. Floats and
times carry their raw 64-bit payload as an opaque `Nat` bit pattern; no
claim computes with float arithmetic. -/
inductive UclNode where
  | nullN (key : Option String)
  | booleanN (key : Option String) (b : Bool)
  | intN (key : Option String) (i : Int)
  | floatN (key : Option String) (bits : Nat)
  | timeN (key : Option String) (bits : Nat)
  | strN (key : Option String) (s : String)
  | arrN (key : Option String) (children : List UclNode)
  | objN (key : Option String) (children : List UclNode)

namespace UclNode

/-- `ObjectRef::key`: the key assigned to the node, if any. -/
def key : UclNode → Option String
  | nullN k | booleanN k _ | intN k _ | floatN k _ | timeN k _
  | strN k _ | arrN k _ | objN k _ => k

/-- `ucl_object_type` / the cached `kind` field of `ObjectRef`. -/
def kind : UclNode → UclKind
  | nullN _ => .null
  | booleanN _ _ => .boolean
  | intN _ _ => .int
  | floatN _ _ => .float
  | timeN _ _ => .time
  | strN _ _ => .string
  | arrN _ _ => .array
  | objN _ _ => .object

/-- `ObjectRef::is_null`. -/
def is_null (n : UclNode) : Bool := n.kind = .null

/-- `ObjectRef::is_object`. -/
def is_object (n : UclNode) : Bool := n.kind = .object

/-- `ObjectRef::is_string`. -/
def is_string (n : UclNode) : Bool := n.kind = .string

/-- `ObjectRef::is_integer`. -/
def is_integer (n : UclNode) : Bool := n.kind = .int

/-- `ObjectRef::is_float`. -/
def is_float (n : UclNode) : Bool := n.kind = .float

/-- `ObjectRef::is_boolean`. -/
def is_boolean (n : UclNode) : Bool := n.kind = .boolean

/-- `ObjectRef::is_array`. -/
def is_array (n : UclNode) : Bool := n.kind = .array

/-- `ObjectRef::is_time`. -/
def is_time (n : UclNode) : Bool := n.kind = .time

end UclNode

/-! ## Priority (`src/raw/priority.rs`)

`Priority` wraps a `c_uint`; we model the wrapped value as a `Nat`. Rust's
truncating `as u32` cast on the `From<u64>` path is `% 2^32`; the signed
`From` impls sign-extend to `i64` exactly, so they take `Int` directly. -/

/-- `Priority::normalize_unsigned`: clamp a `u32` to at most 15. -/
def normalize_unsigned (source : Nat) : Nat :=
  if source > 15 then 15 else source

/-- `Priority::normalize_signed`: clamp an `i64` into `[0, 15]`. -/
def normalize_signed (source : Int) : Nat :=
  if source > 15 then 15
  else if source < 0 then 0
  else source.toNat

namespace Priority

/-- `Priority::new(priority: u32)`. -/
def new (priority : Nat) : Nat := normalize_unsigned priority

/-- `impl From<u64> for Priority`: performs `source as u32` (truncation to
the low 32 bits) before clamping. -/
def fromU64 (source : Nat) : Nat := normalize_unsigned (source % 2 ^ 32)

/-- `impl From<u32> for Priority`. -/
def fromU32 (priority : Nat) : Nat := normalize_unsigned priority

/-- `impl From<u16> for Priority`: `priority as u32` widens exactly. -/
def fromU16 (priority : Nat) : Nat := normalize_unsigned priority

/-- `impl From<u8> for Priority`: `priority as u32` widens exactly. -/
def fromU8 (priority : Nat) : Nat := normalize_unsigned priority

/-- `impl From<i64> for Priority`. -/
def fromI64 (source : Int) : Nat := normalize_signed source

/-- `impl From<i32> for Priority`: `priority as i64` sign-extends exactly. -/
def fromI32 (priority : Int) : Nat := normalize_signed priority

/-- `impl From<i16> for Priority`: `priority as i64` sign-extends exactly. -/
def fromI16 (priority : Int) : Nat := normalize_signed priority

/-- `impl From<i8> for Priority`: `priority as i64` sign-extends exactly. -/
def fromI8 (priority : Int) : Nat := normalize_signed priority

end Priority

/-! ## Typed accessors (`ObjectRef::as_*`, `src/raw/object.rs`)

Each accessor first checks the cached kind tag and only then calls the
engine's safe conversion. The engine conversions are external to the
repository; they are modelled from the specification's interface contract
("the underlying safe conversion succeeds" on a matching tag). -/

/-- Modelled from the spec: `ucl_object_tostring_safe` — the engine's safe
string conversion succeeds exactly on string-kind nodes, yielding the
stored string. -/
def ucl_object_tostring_safe : UclNode → Option String
  | .strN _ s => some s
  | _ => none

/-- Modelled from the spec: `ucl_object_toint_safe` — succeeds on
integer-kind nodes, yielding the stored 64-bit integer. -/
def ucl_object_toint_safe : UclNode → Option Int
  | .intN _ i => some i
  | _ => none

/-- Modelled from the spec: `ucl_object_todouble_safe` — succeeds on
float-kind and time-kind nodes, yielding the stored double payload. -/
def ucl_object_todouble_safe : UclNode → Option Nat
  | .floatN _ bits => some bits
  | .timeN _ bits => some bits
  | _ => none

/-- Modelled from the spec: `ucl_object_toboolean_safe` — succeeds on
boolean-kind nodes. -/
def ucl_object_toboolean_safe : UclNode → Option Bool
  | .booleanN _ b => some b
  | _ => none

namespace UclNode

/-- `ObjectRef::as_string`: return the string value or `None`. -/
def as_string (n : UclNode) : Option String :=
  if ¬ n.is_string then none
  else ucl_object_tostring_safe n

/-- `ObjectRef::as_i64`: return the integer value or `None`. -/
def as_i64 (n : UclNode) : Option Int :=
  if ¬ n.is_integer then none
  else ucl_object_toint_safe n

/-- `ObjectRef::as_f64`: return the float payload or `None`. The source's
guard admits float-kind *and* time-kind nodes ("This function also works on
time object"). -/
def as_f64 (n : UclNode) : Option Nat :=
  if ¬ (n.is_float || n.is_time) then none
  else ucl_object_todouble_safe n

/-- `ObjectRef::as_time`: seconds payload, only if the node is time-kind;
delegates to `as_f64`. -/
def as_time (n : UclNode) : Option Nat :=
  if ¬ n.is_time then none
  else n.as_f64

/-- `ObjectRef::as_bool`: return the boolean value or `None`. -/
def as_bool (n : UclNode) : Option Bool :=
  if ¬ n.is_boolean then none
  else ucl_object_toboolean_safe n

/-- `ObjectRef::as_null`: return `()` or `None`. -/
def as_null (n : UclNode) : Option Unit :=
  if ¬ n.is_null then none
  else some ()

end UclNode

/-! ## Lookup (`ObjectRef::lookup` / `lookup_path`, `src/raw/object.rs`)

Both guard on `is_object` before calling the engine. They are stated
parameterized over the engine function so that the guard's behaviour is
proved for *every* engine: a non-object node yields `none` without the
engine being consulted. -/

/-- `ObjectRef::lookup`, with the engine's `ucl_object_lookup` (composed
with the null check of `ObjectRef::from_c_ptr`) abstracted as `engine`. -/
def lookupWith (engine : UclNode → String → Option UclNode)
    (n : UclNode) (key : String) : Option UclNode :=
  if ¬ n.is_object then none
  else engine n key

/-- `ObjectRef::lookup_path`, with the engine's `ucl_object_lookup_path`
abstracted as `engine`. -/
def lookup_pathWith (engine : UclNode → String → Option UclNode)
    (n : UclNode) (path : String) : Option UclNode :=
  if ¬ n.is_object then none
  else engine n path

/-- Modelled from the spec: `ucl_object_lookup` — direct child lookup by
exact key among the entries of an object node, no recursion. -/
def ucl_object_lookup (n : UclNode) (key : String) : Option UclNode :=
  match n with
  | .objN _ cs => cs.find? (fun c => c.key == some key)
  | _ => none

/-- `ObjectRef::lookup` with the spec-modelled engine plugged in. -/
def lookup (n : UclNode) (key : String) : Option UclNode :=
  lookupWith ucl_object_lookup n key

/-! ## Error type and extraction layer (`FromObject`, `src/raw/object.rs`) -/

/-- `ObjectError` (`src/raw/object.rs`). The payloads of the two wrapped
foreign errors are irrelevant to the claims and elided. -/
inductive ObjectError where
  | keyNotFound (key : String)
  | wrongType (key : String) (actual : UclKind) (wanted : UclKind)
  | intConversionError
  | addrParseError
  | otherErr (descr : String)
  | noneErr
deriving DecidableEq, Repr

/-- `Result::is_err` on the extraction result. -/
def exceptIsErr : Except ObjectError α → Bool
  | .error _ => true
  | .ok _ => false

/-- `Result::ok` on the extraction result. -/
def exceptOk : Except ObjectError α → Option α
  | .ok v => some v
  | .error _ => none

/-- Modelled from the spec: the engine's iteration order used by
`ObjectRef::iter` — array and object nodes yield their children in
insertion order; any other node yields itself exactly once (the implicit
single-element sequence of §4.3). -/
def iterChildren : UclNode → List UclNode
  | .arrN _ cs => cs
  | .objN _ cs => cs
  | n => [n]

/-- `impl FromObject<ObjectRef> for i64`. -/
def FromObject_i64 (n : UclNode) : Except ObjectError Int :=
  match n.as_i64 with
  | some ret => .ok ret
  | none => .error (.wrongType (n.key.getD "") n.kind .int)

/-- `impl FromObject<ObjectRef> for f64`. -/
def FromObject_f64 (n : UclNode) : Except ObjectError Nat :=
  match n.as_f64 with
  | some ret => .ok ret
  | none => .error (.wrongType (n.key.getD "") n.kind .float)

/-- `impl FromObject<ObjectRef> for bool`. -/
def FromObject_bool (n : UclNode) : Except ObjectError Bool :=
  match n.as_bool with
  | some ret => .ok ret
  | none => .error (.wrongType (n.key.getD "") n.kind .boolean)

/-- `impl FromObject<ObjectRef> for ()`. -/
def FromObject_unit (n : UclNode) : Except ObjectError Unit :=
  if n.is_null then .ok ()
  else .error (.wrongType (n.key.getD "") n.kind .null)

/-- `impl FromObject<ObjectRef> for String`. -/
def FromObject_string (n : UclNode) : Except ObjectError String :=
  match n.as_string with
  | some ret => .ok ret
  | none => .error (.wrongType (n.key.getD "") n.kind .string)

/-- `impl FromObject<ObjectRef> for Duration`: requires a time-kind node;
the seconds payload is carried opaquely. -/
def FromObject_duration (n : UclNode) : Except ObjectError Nat :=
  match n.as_time with
  | some seconds => .ok seconds
  | none => .error (.wrongType (n.key.getD "") n.kind .time)

/-- `impl<T> FromObject<ObjectRef> for Option<T>`: `(T::try_from(value)).map(Some)`. -/
def FromObject_option (tf : UclNode → Except ObjectError α) (n : UclNode) :
    Except ObjectError (Option α) :=
  (tf n).map some

/-- `impl<T> FromObject<ObjectRef> for Vec<T>`: map `T::try_from` over the
iterated children, return the first error if any, else the successes in
order. -/
def FromObject_vec (tf : UclNode → Except ObjectError α) (n : UclNode) :
    Except ObjectError (List α) :=
  let ret := (iterChildren n).map tf
  match ret.find? exceptIsErr with
  | some (.error err) => .error err
  | _ => .ok (ret.filterMap exceptOk)

/-- `impl<T, S> FromObject<ObjectRef> for HashMap<String, T, S>`, the map
represented as an association list in entry order. The outer `Option`
models the `expect("Object without key!")` panic on a keyless entry
(`none` = panic), which the embedded claims never reach. -/
def FromObject_hashMap (tf : UclNode → Except ObjectError α) (n : UclNode) :
    Option (Except ObjectError (List (String × α))) :=
  if n.kind ≠ .object then
    some (.error (.wrongType (n.key.getD "") n.kind .object))
  else do
    let entries ← (iterChildren n).mapM
      (fun c => (c.key).map (fun k => (k, tf c)))
    match entries.find? (fun e => exceptIsErr e.2) with
    | some (_, Except.error e) => some (.error e)
    | _ => some (.ok (entries.filterMap
      (fun e => (exceptOk e.2).map (fun v => (e.1, v)))))

/-! ## Iteration (`src/raw/iterator.rs`)

`Iter::new` stores the cursor produced by `ucl_object_iterate_new`, which
may be null. The cursor state is `none` for a null cursor and `some xs`
for a live cursor with `xs` still to yield. `iterate` is the shared body
of `Iter::next` and `IntoIter::next`: it bails out before touching the
engine when the cursor is null. -/

/-- Modelled from the spec: `ucl_object_iterate_full` on a live cursor —
yield the next remaining element, if any, and advance. -/
def ucl_object_iterate_full : List UclNode → Option UclNode × List UclNode
  | [] => (none, [])
  | x :: xs => (some x, xs)

/-- The `iterate` helper of `src/raw/iterator.rs`, parameterized over the
engine step so the null-cursor bail-out is proved for every engine. -/
def iterateWith (engine : List UclNode → Option UclNode × List UclNode) :
    Option (List UclNode) → Option UclNode × Option (List UclNode)
  | none => (none, none)
  | some st =>
    let step := engine st
    (step.1, some step.2)

/-- `iterate` with the spec-modelled engine step plugged in. -/
def iterate : Option (List UclNode) → Option UclNode × Option (List UclNode) :=
  iterateWith ucl_object_iterate_full

/-- The outputs of `k` successive `next` calls starting from a cursor. -/
def iterRun : Option (List UclNode) → Nat → List (Option UclNode)
  | _, 0 => []
  | st, k + 1 =>
    let step := iterate st
    step.1 :: iterRun step.2 k

/-! ## Variable handlers (`src/variable_handlers/`)

A handler, as the dispatch sees it, takes the marker name and either
succeeds — returning `true` after writing a replacement through the
out-pointers, modelled as `some replacement` — or returns `false`,
modelled as `none`. -/

/-- A variable handler viewed through its out-pointer protocol. -/
abbrev Handler := String → Option String

/-- The dispatch closure built by `CompoundHandler::default`: walk the
registered handlers in order, stop at the first success (`break`), report
`found`. An empty registry reports failure. -/
def compoundHandle : List Handler → String → Option String
  | [], _ => none
  | h :: rest, m =>
    match h m with
    | some r => some r
    | none => compoundHandle rest m

/-- `CompoundHandler::register_handler`: push onto the registry, so
registration order is list order. -/
def register_handler (handlers : List Handler) (h : Handler) : List Handler :=
  handlers ++ [h]

/-- `str::starts_with`, on the character sequence of the strings. -/
def strStartsWith (s pfx : String) : Bool :=
  pfx.data.isPrefixOf s.data

/-- The closure built by `EnvVariableHandler::with_prefix`. `pfx` is the
configured marker prefix (`prefix` in the source) and `env` models
`std::env::var`. Note the source passes the *full* marker `var` to
`std::env::var`, not the prefix-stripped remainder. -/
def envHandle (pfx : String) (env : String → Option String) (var : String) :
    Option String :=
  if strStartsWith var pfx then
    match env var with
    | some value => some value
    | none => none
  else none

/-- `EnvVariableHandler::default`: prefix `"ENV_"`. -/
def envHandleDefault (env : String → Option String) : String → Option String :=
  envHandle "ENV_" env

/-! ## Structural comparison (`src/raw/object.rs`, bottom)

`PartialOrd for ObjectRef` delegates to the engine's `ucl_object_compare`
and maps its integer sign through a `match` whose fourth arm is
`unreachable!()`; `Ord::cmp` is `partial_cmp(..).unwrap()`. The engine
compare itself is external and modelled from the specification: kind
comparison first (by enum rank), then size for containers, then content. -/

/-- Sign of an `Ordering` as the C-style comparison integer. -/
def ordToInt : Ordering → Int
  | .lt => -1
  | .eq => 0
  | .gt => 1

mutual

/-- Modelled from the spec: `ucl_object_compare` — compare by kind first,
then by size for container kinds, then by content. -/
def ucl_object_compare (a b : UclNode) : Int :=
  if a.kind = b.kind then contentCompare a b
  else (kindRank a.kind : Int) - (kindRank b.kind : Int)

/-- Modelled from the spec: content comparison between two nodes of the
same kind (the catch-all returns 0 on the impossible mixed-kind cases). -/
def contentCompare : UclNode → UclNode → Int
  | .nullN _, .nullN _ => 0
  | .booleanN _ x, .booleanN _ y =>
    (if x then (1 : Int) else 0) - (if y then (1 : Int) else 0)
  | .intN _ x, .intN _ y => if x < y then -1 else if y < x then 1 else 0
  | .floatN _ x, .floatN _ y =>
    if x < y then -1 else if y < x then 1 else 0
  | .timeN _ x, .timeN _ y =>
    if x < y then -1 else if y < x then 1 else 0
  | .strN _ x, .strN _ y => ordToInt (compare x y)
  | .arrN _ xs, .arrN _ ys =>
    if xs.length < ys.length then -1
    else if ys.length < xs.length then 1
    else childrenCompare xs ys
  | .objN _ xs, .objN _ ys =>
    if xs.length < ys.length then -1
    else if ys.length < xs.length then 1
    else childrenCompare xs ys
  | _, _ => 0

/-- Modelled from the spec: lexicographic comparison of equally long child
lists. -/
def childrenCompare : List UclNode → List UclNode → Int
  | [], _ => 0
  | _ :: _, [] => 0
  | x :: xs, y :: ys =>
    let c := ucl_object_compare x y
    if c = 0 then childrenCompare xs ys else c

end

/-- `impl PartialOrd for ObjectRef`, parameterized by the engine compare:
the Rust `match` over the comparison integer's sign, with the
`unreachable!()` arm modelled as `none`. -/
def partial_cmpWith (engineCmp : UclNode → UclNode → Int) (a b : UclNode) :
    Option Ordering :=
  let cmp := engineCmp a b
  if cmp = 0 then some .eq
  else if cmp < 0 then some .lt
  else if cmp > 0 then some .gt
  else none

/-- `ObjectRef::partial_cmp` with the spec-modelled engine compare. -/
def partial_cmp (a b : UclNode) : Option Ordering :=
  partial_cmpWith ucl_object_compare a b

/-! ## Claims -/

/-- C1, counterexample: the claim says every `From` conversion yields 15
when the input exceeds 15, but `From<u64>` truncates with `as u32` first:
`Priority::from(2^64 - 2^32 ... )` — concretely `2^32`, which is greater
than 15, converts to 0, not 15. -/
theorem priority_fromU64_counterexample :
    15 < 2 ^ 32 ∧ Priority.fromU64 (2 ^ 32) = 0 := by
  refine ⟨by norm_num, ?_⟩
  simp [Priority.fromU64, normalize_unsigned]

/-- C1 (amended): `Priority::new` and the `From` conversions for
u8/u16/u32 clamp the input to `min n 15`; the signed conversions
(i8/i16/i32/i64) clamp to `max 0 (min m 15)` (negative inputs to 0,
inputs above 15 to 15, others unchanged); `From<u64>` first truncates its
argument to the low 32 bits (`source as u32`) and then clamps. Every
construction succeeds and the result is always at most 15. -/
theorem priority_construction_clamps :
    (∀ n : Nat,
      Priority.new n = min n 15
      ∧ Priority.fromU8 n = min n 15
      ∧ Priority.fromU16 n = min n 15
      ∧ Priority.fromU32 n = min n 15
      ∧ Priority.fromU64 n = min (n % 2 ^ 32) 15
      ∧ Priority.new n ≤ 15)
    ∧ (∀ m : Int,
      Priority.fromI8 m = (max 0 (min m 15)).toNat
      ∧ Priority.fromI16 m = (max 0 (min m 15)).toNat
      ∧ Priority.fromI32 m = (max 0 (min m 15)).toNat
      ∧ Priority.fromI64 m = (max 0 (min m 15)).toNat
      ∧ Priority.fromI64 m ≤ 15) := by
  constructor
  · intro n
    have hu : normalize_unsigned n = min n 15 := by
      simp only [normalize_unsigned]
      split <;> omega
    have hu64 : normalize_unsigned (n % 2 ^ 32) = min (n % 2 ^ 32) 15 := by
      simp only [normalize_unsigned]
      split <;> omega
    refine ⟨hu, hu, hu, hu, hu64, ?_⟩
    simp only [Priority.new, normalize_unsigned]
    split <;> omega
  · intro m
    have hs : normalize_signed m = (max 0 (min m 15)).toNat := by
      simp only [normalize_signed]
      split
      · omega
      · split <;> omega
    refine ⟨hs, hs, hs, hs, ?_⟩
    simp only [Priority.fromI64, normalize_signed]
    split
    · omega
    · split <;> omega

/-- C2, counterexample: `as_f64` on a time-kind node (which is not
float-kind) returns `Some`, contradicting "as_f64 returns None for every
node that is not float-kind". -/
theorem as_f64_on_time_counterexample :
    (UclNode.timeN none 5).kind ≠ UclKind.float
    ∧ (UclNode.timeN none 5).as_f64 = some 5 := by
  constructor
  · decide
  · rfl

/-- C2 (amended): each typed accessor returns `Some` only when the node's
kind tag matches its target kind — `as_string` on string, `as_i64` on
integer, `as_bool` on boolean, `as_null` on null, `as_time` on time (so
`as_time` is `None` on a generic float-kind node) — except that `as_f64`
accepts both float-kind and time-kind nodes and returns `None` exactly on
every other kind. -/
theorem accessors_kind_guarded :
    (∀ n : UclNode, n.kind ≠ .string → n.as_string = none)
    ∧ (∀ n : UclNode, n.kind ≠ .int → n.as_i64 = none)
    ∧ (∀ n : UclNode, n.kind ≠ .float → n.kind ≠ .time → n.as_f64 = none)
    ∧ (∀ n : UclNode, n.kind ≠ .boolean → n.as_bool = none)
    ∧ (∀ n : UclNode, n.kind ≠ .null → n.as_null = none)
    ∧ (∀ n : UclNode, n.kind ≠ .time → n.as_time = none) := by
  refine ⟨?_, ?_, ?_, ?_, ?_, ?_⟩ <;> intro n <;>
    cases n <;>
    simp_all [UclNode.as_string, UclNode.as_i64, UclNode.as_f64,
      UclNode.as_bool, UclNode.as_null, UclNode.as_time,
      UclNode.is_string, UclNode.is_integer, UclNode.is_float,
      UclNode.is_boolean, UclNode.is_null, UclNode.is_time, UclNode.kind]

/-- C2 witness: `as_string` on an integer node, `as_i64` on a string node,
`as_f64` on a boolean node, `as_bool` on a null node, `as_null` on an
integer node, and `as_time` on a float node all return `none`. -/
theorem accessors_kind_guarded_witness :
    (UclNode.intN none 3).as_string = none
    ∧ (UclNode.strN none "s").as_i64 = none
    ∧ (UclNode.booleanN none true).as_f64 = none
    ∧ (UclNode.nullN none).as_bool = none
    ∧ (UclNode.intN none 3).as_null = none
    ∧ (UclNode.floatN none 2).as_time = none :=
  ⟨accessors_kind_guarded.1 _ (by decide),
   accessors_kind_guarded.2.1 _ (by decide),
   accessors_kind_guarded.2.2.1 _ (by decide) (by decide),
   accessors_kind_guarded.2.2.2.1 _ (by decide),
   accessors_kind_guarded.2.2.2.2.1 _ (by decide),
   accessors_kind_guarded.2.2.2.2.2 _ (by decide)⟩

/-- C3: the compound dispatch tries registered handlers in registration
order (`register_handler` appends, so list order is registration order):
an empty registry fails; if every handler fails the dispatch fails
(`none`, not an error); if all handlers before `h` fail and `h` succeeds,
the dispatch returns `h`'s substitution regardless of what the handlers
after it would do; and the dispatch succeeds exactly when some registered
handler succeeds. -/
theorem compound_first_match_wins :
    (∀ m, compoundHandle [] m = none)
    ∧ (∀ hs m, (∀ h ∈ hs, h m = none) → compoundHandle hs m = none)
    ∧ (∀ pre h post m r, (∀ g ∈ pre, g m = none) → h m = some r →
        compoundHandle (pre ++ h :: post) m = some r)
    ∧ (∀ hs m, (compoundHandle hs m).isSome ↔ ∃ h ∈ hs, (h m).isSome)
    ∧ (∀ hs h, register_handler hs h = hs ++ [h]) := by
  refine ⟨fun _ => rfl, ?_, ?_, ?_, fun _ _ => rfl⟩
  · intro hs m hall
    induction hs with
    | nil => rfl
    | cons g gs ih =>
      have hg : g m = none := hall g (List.mem_cons_self g gs)
      simp only [compoundHandle, hg]
      exact ih fun h hh => hall h (List.mem_cons_of_mem g hh)
  · intro pre h post m r hpre hh
    induction pre with
    | nil => simp [compoundHandle, hh]
    | cons g gs ih =>
      have hg : g m = none := hpre g (List.mem_cons_self g gs)
      simp only [List.cons_append, compoundHandle, hg]
      exact ih fun q hq => hpre q (List.mem_cons_of_mem g hq)
  · intro hs m
    induction hs with
    | nil => simp [compoundHandle]
    | cons g gs ih =>
      cases hg : g m with
      | none => simp [compoundHandle, hg, ih]
      | some r => simp [compoundHandle, hg]

/-- C3 witness: the empty registry fails on `"x"`; a registry of two
always-failing handlers fails on `"x"`; and with a failing handler
registered before a handler succeeding with `"v"` and another succeeding
handler after it, dispatch on `"x"` returns `"v"`. -/
theorem compound_first_match_wins_witness :
    compoundHandle [] "x" = none
    ∧ compoundHandle [fun _ => none, fun _ => none] "x" = none
    ∧ compoundHandle
        ([fun _ => none] ++ (fun _ => some "v") :: [fun _ => some "w"]) "x"
        = some "v" :=
  ⟨compound_first_match_wins.1 "x",
   compound_first_match_wins.2.1 _ "x"
     (by intro h hh; simp only [List.mem_cons, List.not_mem_nil, or_false] at hh
         rcases hh with rfl | rfl <;> rfl),
   compound_first_match_wins.2.2.1 _ _ _ "x" "v"
     (by intro g hg; simp only [List.mem_singleton] at hg; subst hg; rfl)
     rfl⟩

/-- C4, counterexample: the claim says the handler succeeds when the marker
starts with the prefix and the *prefix-stripped* name is set in the
environment. With prefix `"ENV_"`, an environment where `"FOO"` is set to
`"bar"` but `"ENV_FOO"` is absent, and marker `"ENV_FOO"`, the claim
predicts success with `"bar"`, but the handler fails: the source looks up
the full marker, not the stripped name. -/
theorem env_handler_counterexample :
    strStartsWith "ENV_FOO" "ENV_" = true
    ∧ (fun s => if s = "FOO" then some "bar" else none) "FOO" = some "bar"
    ∧ envHandle "ENV_"
        (fun s => if s = "FOO" then some "bar" else none) "ENV_FOO" = none := by
  refine ⟨by decide, by decide, by decide⟩

/-- C4 (amended): the environment-backed handler with prefix `pfx`
(default `"ENV_"`) succeeds on marker `var` with substitution `r` exactly
when `var` starts with `pfx` and the environment variable named by the
*full, unstripped* marker `var` is set to `r`; otherwise it fails
(`none`, pass-through), never erroring. -/
theorem env_handler_success_iff
    (pfx : String) (env : String → Option String) (var r : String) :
    (envHandle pfx env var = some r
      ↔ (strStartsWith var pfx = true ∧ env var = some r))
    ∧ envHandleDefault env var = envHandle "ENV_" env var := by
  refine ⟨?_, rfl⟩
  simp only [envHandle]
  by_cases h : strStartsWith var pfx
  · cases he : env var <;> simp [h, he]
  · simp [h]

/-- C4 witness: with the default prefix, marker `"ENV_A"`, and an
environment mapping `"ENV_A"` to `"v"`, the success-iff equivalence
instantiates to a success. -/
theorem env_handler_success_iff_witness :
    envHandle "ENV_" (fun s => if s = "ENV_A" then some "v" else none) "ENV_A"
      = some "v" :=
  (env_handler_success_iff "ENV_"
    (fun s => if s = "ENV_A" then some "v" else none) "ENV_A" "v").1.mpr
    ⟨by decide, by decide⟩

/-- C5: for every node that is not object-kind, `lookup` returns `none`
for every key and every engine lookup function (so the engine is never
consulted and no panic can occur), and `lookup_path` likewise returns
`none` for every path and every engine. -/
theorem lookup_non_object_none
    (engineL engineP : UclNode → String → Option UclNode)
    (n : UclNode) (key path : String) (h : n.is_object = false) :
    lookupWith engineL n key = none ∧ lookup_pathWith engineP n path = none := by
  constructor <;> simp [lookupWith, lookup_pathWith, h]

/-- C5 witness: looking up `"k"` (and path `"a.b"`) on an integer-kind
node returns `none` even against an engine that would answer every query. -/
theorem lookup_non_object_none_witness :
    lookupWith (fun _ _ => some (UclNode.nullN none)) (UclNode.intN none 3) "k"
      = none
    ∧ lookup_pathWith (fun _ _ => some (UclNode.nullN none))
        (UclNode.intN none 3) "a.b" = none :=
  lookup_non_object_none _ _ _ "k" "a.b" (by decide)

/-- C6, counterexample: extracting `Option<i64>` from a string-kind node
does not succeed — `(T::try_from(value)).map(Some)` propagates `T`'s
error — contradicting "extracting Option<T> always succeeds, returning
Ok(Some(v))". -/
theorem option_extraction_counterexample :
    FromObject_option FromObject_i64 (UclNode.strN none "x")
      = Except.error (ObjectError.wrongType "" UclKind.string UclKind.int) :=
  rfl

/-- C6 (amended): `Option<T>` extraction wraps `T`'s extraction result:
when `T` succeeds with `v` the result is `Ok(Some(v))`, and when `T` fails
the result is exactly `T`'s error — the instance adds no error of its own
and cannot itself produce `Ok(None)`. -/
theorem option_extraction_wraps
    (tf : UclNode → Except ObjectError α) (n : UclNode) :
    (∀ v, tf n = .ok v → FromObject_option tf n = .ok (some v))
    ∧ (∀ e, tf n = .error e → FromObject_option tf n = .error e) := by
  constructor
  · intro v hv
    simp [FromObject_option, hv, Except.map]
  · intro e he
    simp [FromObject_option, he, Except.map]

/-- C6 witness: extracting `Option<i64>` from the integer node `7` yields
`Ok(Some 7)`, and from a string node yields the underlying wrong-type
error. -/
theorem option_extraction_wraps_witness :
    FromObject_option FromObject_i64 (UclNode.intN none 7)
      = Except.ok (some 7)
    ∧ FromObject_option FromObject_i64 (UclNode.strN none "x")
      = Except.error (ObjectError.wrongType "" UclKind.string UclKind.int) :=
  ⟨(option_extraction_wraps FromObject_i64 (UclNode.intN none 7)).1 7 rfl,
   (option_extraction_wraps FromObject_i64 (UclNode.strN none "x")).2 _ rfl⟩

/-- Shared helper: a list whose every element fails the predicate has no
`find?` result. -/
theorem find_none_of_all_false {α : Type _} (p : α → Bool) (l : List α)
    (h : ∀ x ∈ l, p x = false) : l.find? p = none := by
  induction l with
  | nil => rfl
  | cons x xs ih =>
    have hx := h x (List.mem_cons_self x xs)
    simp only [List.find?, hx]
    exact ih fun y hy => h y (List.mem_cons_of_mem x hy)

/-- Shared helper: `find?` over `pre ++ x :: post` returns `x` when every
element of `pre` fails the predicate and `x` satisfies it. -/
theorem find_first_true {α : Type _} (p : α → Bool) (pre post : List α) (x : α)
    (hpre : ∀ y ∈ pre, p y = false) (hx : p x = true) :
    (pre ++ x :: post).find? p = some x := by
  induction pre with
  | nil => simp [List.find?, hx]
  | cons y ys ih =>
    have hy := hpre y (List.mem_cons_self y ys)
    simp only [List.cons_append, List.find?, hy]
    exact ih fun z hz => hpre z (List.mem_cons_of_mem y hz)

/-- C7: `Vec<T>` extraction maps `T`'s extraction over the iterated
children in order: when every child extraction succeeds the result is `Ok`
of the successes in iteration order, and when some child fails the result
is the error of the earliest failing child (all children before it having
succeeded). -/
theorem vec_extraction (tf : UclNode → Except ObjectError α) (n : UclNode) :
    (∀ vs : List α, (iterChildren n).map tf = vs.map Except.ok →
        FromObject_vec tf n = .ok vs)
    ∧ (∀ xs x ys e, iterChildren n = xs ++ x :: ys →
        (∀ y ∈ xs, exceptIsErr (tf y) = false) → tf x = .error e →
        FromObject_vec tf n = .error e) := by
  constructor
  · intro vs h
    have hnone : ((iterChildren n).map tf).find? exceptIsErr = none := by
      rw [h]
      apply find_none_of_all_false
      intro x hx
      obtain ⟨v, _, rfl⟩ := List.mem_map.mp hx
      rfl
    have hfm : ((iterChildren n).map tf).filterMap exceptOk = vs := by
      rw [h, List.filterMap_map]
      have : (exceptOk ∘ Except.ok : α → Option α) = some := by
        funext v
        rfl
      rw [this, List.filterMap_some]
    simp only [FromObject_vec, hnone, hfm]
  · intro xs x ys e hsplit hok hx
    have hfind : ((iterChildren n).map tf).find? exceptIsErr
        = some (Except.error e) := by
      rw [hsplit, List.map_append, List.map_cons, hx]
      apply find_first_true
      · intro y hy
        obtain ⟨z, hz, rfl⟩ := List.mem_map.mp hy
        exact hok z hz
      · rfl
    simp only [FromObject_vec, hfind]

/-- C7 witness: extracting `Vec<i64>` from `[1, 2]` yields `Ok [1, 2]`,
and from `[1, "a"]` yields the wrong-type error of the second element. -/
theorem vec_extraction_witness :
    FromObject_vec FromObject_i64
      (UclNode.arrN none [UclNode.intN none 1, UclNode.intN none 2])
      = Except.ok [1, 2]
    ∧ FromObject_vec FromObject_i64
      (UclNode.arrN none [UclNode.intN none 1, UclNode.strN none "a"])
      = Except.error (ObjectError.wrongType "" UclKind.string UclKind.int) :=
  ⟨(vec_extraction FromObject_i64
      (UclNode.arrN none [UclNode.intN none 1, UclNode.intN none 2])).1
      [1, 2] rfl,
   (vec_extraction FromObject_i64
      (UclNode.arrN none [UclNode.intN none 1, UclNode.strN none "a"])).2
      [UclNode.intN none 1] (UclNode.strN none "a") [] _ rfl
      (by intro y hy
          simp only [List.mem_singleton] at hy
          subst hy
          rfl)
      rfl⟩

/-- Field discipline of a `WrongType` extraction failure: the key is the
node's key (empty string when absent), the actual kind is the node's kind,
and the wanted kind is the extraction target's kind. Non-`WrongType`
results are unconstrained. -/
def wrongTypeFieldsOk (n : UclNode) (wanted : UclKind) :
    Except ObjectError β → Prop
  | .error (.wrongType k a w) => k = n.key.getD "" ∧ a = n.kind ∧ w = wanted
  | _ => True

/-- C8: `HashMap<String, T>` extraction of a non-object node fails with
exactly `WrongType { key: node key or "", actual: node kind, wanted:
object }`; and every `WrongType` error constructed by the embedded
extraction instances (i64, f64, bool, unit, String, Duration) carries the
offending node's key (empty string when absent), its actual kind, and the
wanted kind. -/
theorem hashmap_wrong_type (tf : UclNode → Except ObjectError α) (n : UclNode) :
    (n.kind ≠ .object →
      FromObject_hashMap tf n
        = some (.error (.wrongType (n.key.getD "") n.kind .object)))
    ∧ wrongTypeFieldsOk n .int (FromObject_i64 n)
    ∧ wrongTypeFieldsOk n .float (FromObject_f64 n)
    ∧ wrongTypeFieldsOk n .boolean (FromObject_bool n)
    ∧ wrongTypeFieldsOk n .null (FromObject_unit n)
    ∧ wrongTypeFieldsOk n .string (FromObject_string n)
    ∧ wrongTypeFieldsOk n .time (FromObject_duration n) := by
  refine ⟨?_, ?_, ?_, ?_, ?_, ?_, ?_⟩
  · intro h
    simp [FromObject_hashMap, h]
  · cases hm : n.as_i64 <;> simp [FromObject_i64, hm, wrongTypeFieldsOk]
  · cases hm : n.as_f64 <;> simp [FromObject_f64, hm, wrongTypeFieldsOk]
  · cases hm : n.as_bool <;> simp [FromObject_bool, hm, wrongTypeFieldsOk]
  · by_cases hm : n.is_null <;> simp [FromObject_unit, hm, wrongTypeFieldsOk]
  · cases hm : n.as_string <;> simp [FromObject_string, hm, wrongTypeFieldsOk]
  · cases hm : n.as_time <;> simp [FromObject_duration, hm, wrongTypeFieldsOk]

/-- C8 witness: extracting a string-keyed map of `i64` from a keyed
string node fails with the `WrongType` error carrying that key, the
string kind, and the wanted object kind. -/
theorem hashmap_wrong_type_witness :
    FromObject_hashMap FromObject_i64 (UclNode.strN (some "k") "v")
      = some (Except.error
          (ObjectError.wrongType "k" UclKind.string UclKind.object)) :=
  (hashmap_wrong_type FromObject_i64 (UclNode.strN (some "k") "v")).1
    (by decide)

/-- C9: an iterator whose cursor failed to initialize (null cursor,
state `none`) never consults the engine — for every engine step function
`next` immediately returns `None` and stays in the failed state — and its
observable behaviour over any number of `next` calls is identical to an
exhausted iterator's: every call returns `None`. -/
theorem null_cursor_iterator_exhausted :
    (∀ engine, iterateWith engine none = (none, none))
    ∧ (∀ k, iterRun none k = iterRun (some []) k)
    ∧ (∀ k, iterRun none k = List.replicate k none) := by
  have hnull : ∀ k, iterRun none k = List.replicate k none := by
    intro k
    induction k with
    | zero => rfl
    | succ k ih => simp [iterRun, iterate, iterateWith, ih, List.replicate]
  have hempty : ∀ k, iterRun (some []) k = List.replicate k none := by
    intro k
    induction k with
    | zero => rfl
    | succ k ih =>
      simp [iterRun, iterate, iterateWith, ucl_object_iterate_full, ih,
        List.replicate]
  exact ⟨fun _ => rfl, fun k => (hnull k).trans (hempty k).symm, hnull⟩

/-- Kinds with equal ranks are equal (the enum ranks are distinct). -/
theorem kindRank_injective (k₁ k₂ : UclKind) (h : kindRank k₁ = kindRank k₂) :
    k₁ = k₂ := by
  revert h
  cases k₁ <;> cases k₂ <;> decide

/-- C10: structural comparison is total across kinds: for every engine
comparison integer (hence for every pair of nodes of any kinds),
`partial_cmp` returns `Some` — so `Ord::cmp`'s `unwrap` of it never fails
and no comparison panics — and for the spec-modelled engine compare, two
nodes of different kinds are ordered purely by the rank of their kinds
(kind comparison precedes content comparison). -/
theorem partial_cmp_total_kind_first :
    (∀ (engineCmp : UclNode → UclNode → Int) (a b : UclNode),
      (partial_cmpWith engineCmp a b).isSome = true)
    ∧ (∀ a b : UclNode, a.kind ≠ b.kind →
      partial_cmp a b = some (compare (kindRank a.kind) (kindRank b.kind))) := by
  constructor
  · intro engineCmp a b
    simp only [partial_cmpWith]
    rcases lt_trichotomy (engineCmp a b) 0 with h | h | h
    · simp [h, h.ne]
    · simp [h]
    · simp [h, h.ne', not_lt_of_gt h]
  · intro a b h
    have hcmp : ucl_object_compare a b
        = (kindRank a.kind : Int) - (kindRank b.kind : Int) := by
      rw [ucl_object_compare]
      simp [h]
    rcases Nat.lt_trichotomy (kindRank a.kind) (kindRank b.kind) with hlt | heq | hgt
    · have hc : compare (kindRank a.kind) (kindRank b.kind) = .lt :=
        Nat.compare_eq_lt.mpr hlt
      simp only [partial_cmp, partial_cmpWith, hcmp, hc]
      have h1 : (kindRank a.kind : Int) - (kindRank b.kind : Int) ≠ 0 := by omega
      have h2 : (kindRank a.kind : Int) - (kindRank b.kind : Int) < 0 := by omega
      simp [h1, h2]
    · exact absurd (kindRank_injective _ _ heq) h
    · have hc : compare (kindRank a.kind) (kindRank b.kind) = .gt :=
        Nat.compare_eq_gt.mpr hgt
      simp only [partial_cmp, partial_cmpWith, hcmp, hc]
      have h1 : (kindRank a.kind : Int) - (kindRank b.kind : Int) ≠ 0 := by omega
      have h2 : ¬ (kindRank a.kind : Int) - (kindRank b.kind : Int) < 0 := by
        omega
      simp [h1, h2, hgt]

/-- C10 witness: comparing a string-kind node with an integer-kind node
returns `Some Greater` (string's kind rank exceeds integer's), so the
`unwrap` in `Ord::cmp` succeeds. -/
theorem partial_cmp_total_kind_first_witness :
    partial_cmp (UclNode.strN none "s") (UclNode.intN none 1)
      = some Ordering.gt :=
  (partial_cmp_total_kind_first.2 (UclNode.strN none "s")
    (UclNode.intN none 1) (by decide)).trans (by decide)

end Uclicious
